import Mathlib

/-!
Shallow embedding of the solana-volume-sdk `AMM` class and its helpers
(`createFundTx`, `createFundSingleTx`, `makers`, `volume`, `swap`,
`getSolBalance`, `getTokenBalance`) together with proofs of the spec's
testable properties.  Network effects (RPC, aggregator, relay) are modelled
as explicit inputs to each loop iteration; JavaScript numbers are modelled
as rationals, lamport amounts as integers, and `Math.floor` as the integer
floor on rationals.
-/

namespace SolanaVolumeSdk

/-- Little-endian byte encoding, the model of
`new BN(n).toArrayLike(Buffer, "le", k)`: `k` bytes, least significant
first. -/
def toLEBytes : Nat → Nat → List Nat
  | 0, _ => []
  | k + 1, n => n % 256 :: toLEBytes k (n / 256)

/-- Little-endian decoding of a byte list back to a natural number. -/
def fromLEBytes : List Nat → Nat
  | [] => 0
  | b :: bs => b + 256 * fromLEBytes bs

/-- Instruction payload built by `AMM.createFundTx` (4-recipient funding):
`Buffer.alloc(9)` with byte 0 set to the command identifier `0` and bytes
1..8 holding the tip as 8 little-endian bytes. -/
def createFundTxData (jitoTipLamports : Nat) : List Nat :=
  0 :: toLEBytes 8 jitoTipLamports

/-- Instruction payload built by `AMM.createFundSingleTx` (1-recipient
funding): command identifier `3` followed by the tip as 8 little-endian
bytes. -/
def createFundSingleTxData (jitoTipLamports : Nat) : List Nat :=
  3 :: toLEBytes 8 jitoTipLamports

/-- An entry of a transaction instruction's account list, over an abstract
key type `K`. -/
structure AccountMeta (K : Type) where
  pubkey : K
  isSigner : Bool
  isWritable : Bool
deriving DecidableEq

/-- The distinct public keys appearing in the `createFundTx` account list:
the payer, the four freshly generated recipients, the randomly selected
Jito (relay-tip) account, the two fixed fee accounts and the system
program. -/
inductive FundTxKey
  | payer
  | recipient (i : Fin 4)
  | jitoAccount
  | feeAccount1
  | feeAccount2
  | systemProgram
deriving DecidableEq

/-- Whether a `FundTxKey` is one of the four funded recipients. -/
def FundTxKey.isRecipient : FundTxKey → Bool
  | .recipient _ => true
  | _ => false

/-- The account list of the `createFundTx` funding instruction, in source
order. -/
def createFundTxAccounts : List (AccountMeta FundTxKey) :=
  [ ⟨.payer, true, true⟩,
    ⟨.recipient 0, false, true⟩,
    ⟨.recipient 1, false, true⟩,
    ⟨.recipient 2, false, true⟩,
    ⟨.recipient 3, false, true⟩,
    ⟨.jitoAccount, false, true⟩,
    ⟨.feeAccount1, false, true⟩,
    ⟨.feeAccount2, false, true⟩,
    ⟨.systemProgram, false, false⟩ ]

/-- The distinct public keys appearing in the `createFundSingleTx` account
list. -/
inductive FundSingleTxKey
  | payer
  | recipient
  | jitoAccount
  | feeAccount1
  | feeAccount2
  | systemProgram
deriving DecidableEq

/-- The account list of the `createFundSingleTx` funding instruction, in
source order. -/
def createFundSingleTxAccounts : List (AccountMeta FundSingleTxKey) :=
  [ ⟨.payer, true, true⟩,
    ⟨.recipient, false, true⟩,
    ⟨.jitoAccount, false, true⟩,
    ⟨.feeAccount1, false, true⟩,
    ⟨.feeAccount2, false, true⟩,
    ⟨.systemProgram, false, false⟩ ]

/-- The JSON body returned by `sendBundle`: an optional `result` (bundle
id) field and an optional `error` field. -/
structure BundleResponse where
  result : Option String
  error : Option String
deriving DecidableEq

/-- JavaScript truthiness of an optional string field: absent and empty
strings are falsy. -/
def jsTruthy : Option String → Bool
  | none => false
  | some s => s != ""

/-- The aggregator's quote response: the optional `data` field holding the
route list, over an abstract route type. -/
structure QuoteResponse (Route : Type) where
  data : Option (List Route)

/-- Route selection in `swapMakers`/`swapVolume`: if `!data.data ||
data.data.length === 0` the code throws "No routes found for the swap.",
otherwise it picks `data.data[0]`. -/
def pickRoute {Route : Type} (resp : QuoteResponse Route) : Except String Route :=
  match resp.data with
  | none => .error "No routes found for the swap."
  | some [] => .error "No routes found for the swap."
  | some (r :: _) => .ok r

/-- Outcome of `AMM.swap`'s bundle-submission check: when the response has
a truthy `result` the swap logs success and returns, otherwise it throws
`"Swap failed: " + (bundleResponse.error || "Unknown error")`. -/
def swapSubmitOutcome (resp : BundleResponse) : Except String String :=
  if jsTruthy resp.result then .ok (resp.result.getD "")
  else .error ("Swap failed: " ++
    (if jsTruthy resp.error then resp.error.getD "" else "Unknown error"))

/-- The mutable blockhash cache of an `AMM` instance: `this.blockhash`
(empty string when absent) and `this.lastBlockhashRefresh`. -/
structure BlockhashState where
  blockhash : String
  lastBlockhashRefresh : Int
deriving DecidableEq

/-- The one-shot `AMM.swap` workflow: lazily initialize the blockhash cache
when it is absent (`initializeBlockhash` stores the fetched hash and resets
`lastBlockhashRefresh` to 0), then run the route-selection and
bundle-submission pipeline; a route-selection error is rethrown unchanged
by the surrounding catch block.  Returns the blockhash cache after the
call together with the thrown error or the bundle id. -/
def swap {Route : Type} (st : BlockhashState) (initBlockhash : String)
    (quote : QuoteResponse Route) (resp : BundleResponse) :
    BlockhashState × Except String String :=
  let st' := if st.blockhash == "" then ⟨initBlockhash, 0⟩ else st
  match pickRoute quote with
  | .error e => (st', .error e)
  | .ok _ => (st', swapSubmitOutcome resp)

/-- The statistics record built and returned by `AMM.makers`. -/
structure MakerStats where
  makersCompleted : Int
  makersRemaining : Int
  bundleCount : Int
  latestBundleId : Option String
  finished : Bool
deriving DecidableEq

/-- The `stats` object as initialized at the top of `AMM.makers`. -/
def initialMakerStats (totalMakersRequired : Int) : MakerStats :=
  ⟨0, totalMakersRequired, 0, none, false⟩

/-- The staleness condition guarding the blockhash refresh in `AMM.makers`:
`!this.blockhash || stats.bundleCount - this.lastBlockhashRefresh >= 10`.
It reads the bundle counter, never a clock. -/
def makersRefreshCond (blockhash : String) (bundleCount lastBlockhashRefresh : Int) : Bool :=
  blockhash == "" || bundleCount - lastBlockhashRefresh ≥ 10

/-- The staleness condition guarding the blockhash refresh in `AMM.volume`:
`!this.blockhash || Date.now() - this.lastBlockhashRefresh >= 60_000`.
It reads the clock, never a bundle counter. -/
def volumeRefreshCond (blockhash : String) (now lastBlockhashRefresh : Int) : Bool :=
  blockhash == "" || now - lastBlockhashRefresh ≥ 60000

/-- The external-world inputs consumed by one iteration of the `makers`
loop: the blockhash the RPC would return if queried, and either the bundle
response or an exception thrown inside the try block (modelled as thrown
after the refresh step). -/
structure MakerIterEnv where
  freshBlockhash : String
  outcome : Except String BundleResponse

/-- One iteration of the `AMM.makers` while-loop body: refresh the
blockhash cache when `makersRefreshCond` holds (recording
`stats.bundleCount` as the refresh point), then, unless an exception was
thrown, check the bundle response: a truthy `result` advances
`bundleCount` by 1 and `makersCompleted` by `signers.length = 4` and
recomputes `makersRemaining`; any exception is caught, logged and the
iteration retried with `stats` unchanged. -/
def makersIter (totalMakersRequired : Int) (env : MakerIterEnv)
    (bh : BlockhashState) (stats : MakerStats) : BlockhashState × MakerStats :=
  let bh' := if makersRefreshCond bh.blockhash stats.bundleCount bh.lastBlockhashRefresh
    then ⟨env.freshBlockhash, stats.bundleCount⟩ else bh
  match env.outcome with
  | .error _ => (bh', stats)
  | .ok resp =>
    if jsTruthy resp.result then
      (bh', { makersCompleted := stats.makersCompleted + 4,
              makersRemaining := totalMakersRequired - (stats.makersCompleted + 4),
              bundleCount := stats.bundleCount + 1,
              latestBundleId := resp.result,
              finished := stats.finished })
    else (bh', stats)

/-- The `AMM.makers` while-loop, driven by a finite list of per-iteration
environments: loops while `stats.makersCompleted < totalMakersRequired`,
and on exit sets `finished := true` and returns the stats.  Returns `none`
when the supplied environments are exhausted before the loop exits. -/
def makersRun (totalMakersRequired : Int) :
    List MakerIterEnv → BlockhashState × MakerStats → Option (BlockhashState × MakerStats)
  | [], (bh, stats) =>
    if stats.makersCompleted < totalMakersRequired then none
    else some (bh, { stats with finished := true })
  | env :: rest, (bh, stats) =>
    if stats.makersCompleted < totalMakersRequired then
      makersRun totalMakersRequired rest (makersIter totalMakersRequired env bh stats)
    else some (bh, { stats with finished := true })

/-- The local counters of the `AMM.volume` loop. -/
structure VolumeState where
  totalNetVolume : ℚ
  totalRealVolume : ℚ
  tradesUntilNextSell : Int
  tradeCount : Nat
deriving DecidableEq

/-- The four `Math.random()` draws consumed by one iteration of the
`volume` loop: the 30% sell trigger, the sell-percentage draw, the
buy-amount draw and the countdown-reset draw. -/
structure VolumeDraws where
  rDirection : ℚ
  rPercent : ℚ
  rBuy : ℚ
  rReset : ℚ
deriving DecidableEq

/-- All `Math.random()` results lie in the half-open unit interval. -/
def ValidDraws (d : VolumeDraws) : Prop :=
  0 ≤ d.rDirection ∧ d.rDirection < 1 ∧ 0 ≤ d.rPercent ∧ d.rPercent < 1 ∧
    0 ≤ d.rBuy ∧ d.rBuy < 1 ∧ 0 ≤ d.rReset ∧ d.rReset < 1

/-- The sell decision in `AMM.volume`:
`(tradesUntilNextSell <= 0 || Math.random() < 0.3) && totalNetVolume > 0`. -/
def shouldSell (s : VolumeState) (rDirection : ℚ) : Bool :=
  (s.tradesUntilNextSell ≤ 0 || rDirection < 3 / 10) && s.totalNetVolume > 0

/-- The sell fraction computed in `AMM.volume`:
`0.5 + Math.random() * 0.5 * maxSellPercentage` with
`maxSellPercentage = 1 / mCapFactor`. -/
def sellPercentage (mCapFactor rPercent : ℚ) : ℚ :=
  1 / 2 + rPercent * (1 / 2) * (1 / mCapFactor)

/-- The sell amount in lamports:
`Math.floor(totalNetVolume * sellPercentage * 1e9)`. -/
def sellAmount (totalNetVolume mCapFactor rPercent : ℚ) : Int :=
  ⌊totalNetVolume * sellPercentage mCapFactor rPercent * 1000000000⌋

/-- The buy amount in lamports:
`Math.floor((Math.random() * (maxSolPerSwap - minSolPerSwap) + minSolPerSwap) * 1e9)`. -/
def buyAmount (minSolPerSwap maxSolPerSwap rBuy : ℚ) : Int :=
  ⌊(rBuy * (maxSolPerSwap - minSolPerSwap) + minSolPerSwap) * 1000000000⌋

/-- The external-world inputs consumed by one iteration of the `volume`
loop: the current clock value, the blockhash the RPC would return, the
four random draws, and whether the submitted bundle was acknowledged with
a truthy `result` (false also covers an exception thrown after the
direction-decision block). -/
structure VolumeIterEnv where
  now : Int
  freshBlockhash : String
  draws : VolumeDraws
  success : Bool
deriving DecidableEq

/-- One iteration of the `AMM.volume` while-loop body: refresh the
blockhash cache when `volumeRefreshCond` holds (recording `Date.now()`),
decide the direction (`sell` only when `shouldSell`), compute the lamport
amount, update the buys-before-next-sell countdown (this happens before
submission, hence regardless of success), and on an acknowledged bundle
update net volume (buy adds, sell subtracts `amount / 1e9`), gross volume
and the trade counter. -/
def volumeStep (minSolPerSwap maxSolPerSwap mCapFactor : ℚ)
    (now : Int) (freshBlockhash : String) (d : VolumeDraws) (success : Bool)
    (bh : BlockhashState) (s : VolumeState) : BlockhashState × VolumeState :=
  let bh' := if volumeRefreshCond bh.blockhash now bh.lastBlockhashRefresh
    then ⟨freshBlockhash, now⟩ else bh
  let sell := shouldSell s d.rDirection
  let amount : Int :=
    if sell then sellAmount s.totalNetVolume mCapFactor d.rPercent
    else buyAmount minSolPerSwap maxSolPerSwap d.rBuy
  let tuns : Int := if sell then ⌊d.rReset * 3⌋ + 1 else s.tradesUntilNextSell - 1
  let solAmount : ℚ := (amount : ℚ) / 1000000000
  if success then
    (bh',
      { totalNetVolume :=
          if sell then s.totalNetVolume - solAmount else s.totalNetVolume + solAmount,
        totalRealVolume := s.totalRealVolume + solAmount,
        tradesUntilNextSell := tuns,
        tradeCount := s.tradeCount + 1 })
  else (bh', { s with tradesUntilNextSell := tuns })

/-- The `AMM.volume` loop run for finitely many iterations (the source
loop is unbounded; a finite environment list models a finite observation
window). -/
def volumeRun (minSolPerSwap maxSolPerSwap mCapFactor : ℚ) :
    List VolumeIterEnv → BlockhashState × VolumeState → BlockhashState × VolumeState
  | [], st => st
  | env :: rest, (bh, s) =>
    volumeRun minSolPerSwap maxSolPerSwap mCapFactor rest
      (volumeStep minSolPerSwap maxSolPerSwap mCapFactor
        env.now env.freshBlockhash env.draws env.success bh s)

/-- `AMM.getTokenBalance`: on a successful token-account lookup returns
`Number(amount) / 10 ** decimals`; any thrown error is caught, logged and
turned into the return value 0. -/
def getTokenBalance (lookup : Except String (Nat × Nat)) : ℚ :=
  match lookup with
  | .ok (amount, decimals) => (amount : ℚ) / 10 ^ decimals
  | .error _ => 0

/-- `AMM.getSolBalance`: on a successful RPC call returns
`lamports / 1e9`; any thrown error is caught, logged and turned into the
return value 0. -/
def getSolBalance (rpc : Except String Nat) : ℚ :=
  match rpc with
  | .ok lamports => (lamports : ℚ) / 1000000000
  | .error _ => 0

/-- A `k`-byte little-endian encoding has exactly `k` bytes. -/
theorem toLEBytes_length (k : Nat) : ∀ n : Nat, (toLEBytes k n).length = k := by
  induction k with
  | zero => intro n; simp [toLEBytes]
  | succ k ih => intro n; simp [toLEBytes, ih]

/-- Little-endian decoding inverts encoding for values that fit in `k`
bytes. -/
theorem fromLEBytes_toLEBytes (k : Nat) :
    ∀ n : Nat, n < 256 ^ k → fromLEBytes (toLEBytes k n) = n := by
  induction k with
  | zero =>
    intro n h
    simp only [pow_zero, Nat.lt_one_iff] at h
    simp [toLEBytes, fromLEBytes, h]
  | succ k ih =>
    intro n h
    have hdiv : n / 256 < 256 ^ k := by
      refine Nat.div_lt_of_lt_mul ?_
      rw [← pow_succ']
      exact h
    simp only [toLEBytes, fromLEBytes, ih (n / 256) hdiv]
    omega

/-- C3: for every funding-transaction build (both the 4-recipient and the
1-recipient path) and every tip below `2 ^ 63`, the instruction payload is
exactly 9 bytes — one command-tag byte followed by the tip as 8
little-endian bytes — and decoding the 8 tip bytes recovers the original
tip value. -/
theorem fund_payload_layout (tip : Nat) (h : tip < 2 ^ 63) :
    (createFundTxData tip).length = 9 ∧
    (createFundSingleTxData tip).length = 9 ∧
    createFundTxData tip = 0 :: toLEBytes 8 tip ∧
    createFundSingleTxData tip = 3 :: toLEBytes 8 tip ∧
    fromLEBytes ((createFundTxData tip).drop 1) = tip ∧
    fromLEBytes ((createFundSingleTxData tip).drop 1) = tip := by
  have h8 : tip < 256 ^ 8 := lt_of_lt_of_le h (by norm_num)
  refine ⟨?_, ?_, rfl, rfl, ?_, ?_⟩ <;>
    simp [createFundTxData, createFundSingleTxData, toLEBytes_length,
      fromLEBytes_toLEBytes 8 tip h8]

/-- Witness for C3 at the concrete tip 123456789. -/
theorem fund_payload_layout_witness :
    (createFundTxData 123456789).length = 9 ∧
    (createFundSingleTxData 123456789).length = 9 ∧
    createFundTxData 123456789 = 0 :: toLEBytes 8 123456789 ∧
    createFundSingleTxData 123456789 = 3 :: toLEBytes 8 123456789 ∧
    fromLEBytes ((createFundTxData 123456789).drop 1) = 123456789 ∧
    fromLEBytes ((createFundSingleTxData 123456789).drop 1) = 123456789 :=
  fund_payload_layout 123456789 (by norm_num)

/-- C4: the command tag of the 4-recipient funding payload (0) differs
from that of the 1-recipient payload (3) for every pair of inputs, and the
4-recipient account list contains exactly 4 writable recipient entries,
exactly one writable relay-tip (Jito) entry, and both fixed fee
accounts. -/
theorem fund_command_tags_and_accounts (tip tipSingle : Nat) :
    (createFundTxData tip).head? = some 0 ∧
    (createFundSingleTxData tipSingle).head? = some 3 ∧
    (createFundTxData tip).head? ≠ (createFundSingleTxData tipSingle).head? ∧
    createFundTxAccounts.countP (fun a => a.pubkey.isRecipient && a.isWritable) = 4 ∧
    createFundTxAccounts.countP
      (fun a => (a.pubkey == FundTxKey.jitoAccount) && a.isWritable) = 1 ∧
    FundTxKey.feeAccount1 ∈ createFundTxAccounts.map AccountMeta.pubkey ∧
    FundTxKey.feeAccount2 ∈ createFundTxAccounts.map AccountMeta.pubkey := by
  refine ⟨rfl, rfl, by simp [createFundTxData, createFundSingleTxData], ?_, ?_, ?_, ?_⟩ <;>
    decide

/-- C10: both balance getters swallow every lookup failure and return 0,
so a failed query is indistinguishable from a genuinely zero balance at
the public interface. -/
theorem balance_getters_never_throw (e : String) (decimals : Nat) :
    getSolBalance (.error e) = 0 ∧
    getTokenBalance (.error e) = 0 ∧
    getSolBalance (.error e) = getSolBalance (.ok 0) ∧
    getTokenBalance (.error e) = getTokenBalance (.ok (0, decimals)) := by
  simp [getSolBalance, getTokenBalance]

/-- C5: with every relay submission acknowledged, `makers(mint, 8, {})`
runs exactly 2 loop iterations — each funding 4 fresh signers and
advancing the completed count by 4 — and returns
`{makersCompleted: 8, makersRemaining: 0, bundleCount: 2, finished: true}`;
a single iteration does not reach the exit condition. -/
theorem makers_eight_completes_in_two_bundles :
    makersRun 8
      [⟨"h1", .ok ⟨some "b1", none⟩⟩, ⟨"h2", .ok ⟨some "b2", none⟩⟩]
      (⟨"h0", 0⟩, initialMakerStats 8)
      = some (⟨"h0", 0⟩, ⟨8, 0, 2, some "b2", true⟩) ∧
    makersRun 8 [⟨"h1", .ok ⟨some "b1", none⟩⟩]
      (⟨"h0", 0⟩, initialMakerStats 8) = none := by
  constructor <;> rfl

/-- C6: the maker workflow refreshes the cached blockhash exactly when it
is absent or at least 10 bundles were submitted since the last refresh (a
bundle-count condition), while the volume workflow refreshes exactly when
it is absent or at least 60000 ms elapsed since the last refresh (a clock
condition); both loop bodies apply exactly these conditions. -/
theorem staleness_policies :
    (∀ (bh : String) (bundleCount lastRefresh : Int),
      makersRefreshCond bh bundleCount lastRefresh = true ↔
        (bh = "" ∨ 10 ≤ bundleCount - lastRefresh)) ∧
    (∀ (bh : String) (now lastRefresh : Int),
      volumeRefreshCond bh now lastRefresh = true ↔
        (bh = "" ∨ 60000 ≤ now - lastRefresh)) ∧
    (∀ (total : Int) (env : MakerIterEnv) (bhs : BlockhashState) (stats : MakerStats),
      (makersIter total env bhs stats).1 =
        if makersRefreshCond bhs.blockhash stats.bundleCount bhs.lastBlockhashRefresh
        then ⟨env.freshBlockhash, stats.bundleCount⟩ else bhs) ∧
    (∀ (minS maxS m : ℚ) (now : Int) (fbh : String) (d : VolumeDraws) (success : Bool)
      (bh : BlockhashState) (s : VolumeState),
      (volumeStep minS maxS m now fbh d success bh s).1 =
        if volumeRefreshCond bh.blockhash now bh.lastBlockhashRefresh
        then ⟨fbh, now⟩ else bh) := by
  refine ⟨?_, ?_, ?_, ?_⟩
  · intro bh bc lr
    simp [makersRefreshCond]
  · intro bh now lr
    simp [volumeRefreshCond]
  · rintro total ⟨fbh, oc⟩ bhs stats
    rcases oc with e | resp
    · rfl
    · simp only [makersIter]
      split <;> rfl
  · intro minS maxS m now fbh d success bh s
    cases success <;> simp [volumeStep]

/-- C8: an absent or empty aggregator route list makes route selection
fail with the "No routes found" error; inside the maker loop this
exception is caught by the blanket handler leaving the stats unchanged,
inside the volume loop a failed iteration leaves all volume counters
unchanged, and in the one-shot swap workflow the error propagates to the
caller. -/
theorem noRouteFound_handling :
    (pickRoute (⟨none⟩ : QuoteResponse Unit) = .error "No routes found for the swap.") ∧
    (pickRoute (⟨some []⟩ : QuoteResponse Unit) = .error "No routes found for the swap.") ∧
    (∀ (total : Int) (fbh e : String) (bhs : BlockhashState) (stats : MakerStats),
      (makersIter total ⟨fbh, .error e⟩ bhs stats).2 = stats) ∧
    (∀ (minS maxS m : ℚ) (now : Int) (fbh : String) (d : VolumeDraws)
      (bh : BlockhashState) (s : VolumeState),
      ((volumeStep minS maxS m now fbh d false bh s).2).totalNetVolume = s.totalNetVolume ∧
      ((volumeStep minS maxS m now fbh d false bh s).2).totalRealVolume = s.totalRealVolume ∧
      ((volumeStep minS maxS m now fbh d false bh s).2).tradeCount = s.tradeCount) ∧
    (∀ (st : BlockhashState) (initBh : String) (resp : BundleResponse),
      swap st initBh (⟨none⟩ : QuoteResponse Unit) resp =
        ((if st.blockhash == "" then ⟨initBh, 0⟩ else st),
          .error "No routes found for the swap.")) := by
  refine ⟨rfl, rfl, ?_, ?_, ?_⟩
  · intro total fbh e bhs stats
    simp [makersIter]
  · intro minS maxS m now fbh d bh s
    refine ⟨?_, ?_, ?_⟩ <;> simp [volumeStep]
  · intro st initBh resp
    simp [swap, pickRoute]

/-- C7: when the relay response has no `result` field and an error value
`x`, the one-shot swap throws `"Swap failed: " ++ x` — a message containing
`x` — and leaves the blockhash cache (the only session state in scope of
`swap`; the volume and maker counters are loop-local) untouched; a
response with a `result` field succeeds without throwing. -/
theorem swap_relay_error_throws (st : BlockhashState) (initBh x bid : String)
    (hbh : st.blockhash ≠ "") (hx : x ≠ "") (hbid : bid ≠ "") :
    swap st initBh (⟨some [()]⟩ : QuoteResponse Unit) ⟨none, some x⟩ =
      (st, .error ("Swap failed: " ++ x)) ∧
    (∃ pre post : String, "Swap failed: " ++ x = pre ++ x ++ post) ∧
    swap st initBh (⟨some [()]⟩ : QuoteResponse Unit) ⟨some bid, none⟩ = (st, .ok bid) := by
  have hst : (st.blockhash == "") = false := by simp [hbh]
  refine ⟨?_, ⟨"Swap failed: ", "", by simp⟩, ?_⟩ <;>
    simp [swap, pickRoute, swapSubmitOutcome, jsTruthy, hst, hx, hbid]

/-- Witness for C7 at a concrete cached blockhash, error value "x" and
bundle id "bid". -/
theorem swap_relay_error_throws_witness :
    swap ⟨"h", 0⟩ "i" (⟨some [()]⟩ : QuoteResponse Unit) ⟨none, some "x"⟩ =
      (⟨"h", 0⟩, .error ("Swap failed: " ++ "x")) ∧
    (∃ pre post : String, "Swap failed: " ++ "x" = pre ++ "x" ++ post) ∧
    swap ⟨"h", 0⟩ "i" (⟨some [()]⟩ : QuoteResponse Unit) ⟨some "bid", none⟩ =
      (⟨"h", 0⟩, .ok "bid") :=
  swap_relay_error_throws ⟨"h", 0⟩ "i" "x" "bid" (by decide) (by decide) (by decide)

/-- If the sell decision fires, the current net volume is strictly
positive (the second conjunct of the condition). -/
theorem shouldSell_pos (s : VolumeState) (r : ℚ) (h : shouldSell s r = true) :
    0 < s.totalNetVolume := by
  simp only [shouldSell, Bool.and_eq_true, decide_eq_true_eq] at h
  exact h.2

/-- With `mCapFactor ≥ 1` and an in-range draw, the sell fraction is
strictly below 1. -/
theorem sellPercentage_lt_one (m r : ℚ) (hm : 1 ≤ m) (hr0 : 0 ≤ r) (hr1 : r < 1) :
    sellPercentage m r < 1 := by
  have hm0 : 0 < m := lt_of_lt_of_le one_pos hm
  have hu0 : 0 < 1 / m := by positivity
  have hu1 : 1 / m ≤ 1 := (div_le_one hm0).mpr hm
  have h1 : r * (1 / m) ≤ r := by
    calc r * (1 / m) ≤ r * 1 := mul_le_mul_of_nonneg_left hu1 hr0
    _ = r := mul_one r
  unfold sellPercentage
  nlinarith

/-- Over one iteration of the volume loop with `mCapFactor ≥ 1`,
non-negative swap bounds and in-range draws, a non-negative net volume
stays non-negative. -/
theorem volumeStep_netVolume_nonneg
    (minS maxS m : ℚ) (now : Int) (fbh : String) (d : VolumeDraws) (success : Bool)
    (bh : BlockhashState) (s : VolumeState)
    (hm : 1 ≤ m) (hmin : 0 ≤ minS) (hminmax : minS ≤ maxS) (hd : ValidDraws d)
    (hs : 0 ≤ s.totalNetVolume) :
    0 ≤ ((volumeStep minS maxS m now fbh d success bh s).2).totalNetVolume := by
  obtain ⟨hd1, hd2, hp0, hp1, hb0, hb1, hr0, hr1⟩ := hd
  cases success with
  | false => simpa [volumeStep] using hs
  | true =>
    by_cases hsell : shouldSell s d.rDirection
    · have hv : 0 < s.totalNetVolume := shouldSell_pos s d.rDirection hsell
      have hp : sellPercentage m d.rPercent < 1 := sellPercentage_lt_one m d.rPercent hm hp0 hp1
      have hple : (0 : ℚ) < sellPercentage m d.rPercent := by
        have hm0 : 0 < m := lt_of_lt_of_le one_pos hm
        unfold sellPercentage
        positivity
      have hfloor : ((sellAmount s.totalNetVolume m d.rPercent : ℤ) : ℚ) ≤
          s.totalNetVolume * sellPercentage m d.rPercent * 1000000000 :=
        Int.floor_le _
      have hub : s.totalNetVolume * sellPercentage m d.rPercent * 1000000000 ≤
          s.totalNetVolume * 1000000000 := by
        nlinarith [mul_nonneg (le_of_lt hv) (sub_nonneg.mpr (le_of_lt hp))]
      simp only [volumeStep, hsell, if_true]
      rw [sub_nonneg, div_le_iff₀ (by norm_num : (0 : ℚ) < 1000000000)]
      linarith
    · have hamt : (0 : ℤ) ≤ buyAmount minS maxS d.rBuy := by
        refine Int.le_floor.mpr ?_
        push_cast
        nlinarith [mul_nonneg hb0 (sub_nonneg.mpr hminmax)]
      have hq : (0 : ℚ) ≤ ((buyAmount minS maxS d.rBuy : ℤ) : ℚ) / 1000000000 := by
        have : (0 : ℚ) ≤ ((buyAmount minS maxS d.rBuy : ℤ) : ℚ) := by exact_mod_cast hamt
        positivity
      simp only [volumeStep, hsell, if_false, if_true, Bool.false_eq_true]
      linarith

/-- Across any finite run of the volume loop with `mCapFactor ≥ 1`,
non-negative swap bounds and in-range draws, a non-negative net volume
stays non-negative. -/
theorem volumeRun_netVolume_nonneg
    (minS maxS m : ℚ) (hm : 1 ≤ m) (hmin : 0 ≤ minS) (hminmax : minS ≤ maxS) :
    ∀ (envs : List VolumeIterEnv) (bh : BlockhashState) (s : VolumeState),
      (∀ e ∈ envs, ValidDraws e.draws) → 0 ≤ s.totalNetVolume →
      0 ≤ ((volumeRun minS maxS m envs (bh, s)).2).totalNetVolume := by
  intro envs
  induction envs with
  | nil =>
    intro bh s _ hs
    simpa [volumeRun] using hs
  | cons e rest ih =>
    intro bh s hd hs
    simp only [volumeRun]
    exact ih (volumeStep minS maxS m e.now e.freshBlockhash e.draws e.success bh s).1
      (volumeStep minS maxS m e.now e.freshBlockhash e.draws e.success bh s).2
      (fun x hx => hd x (List.mem_cons_of_mem _ hx))
      (volumeStep_netVolume_nonneg minS maxS m e.now e.freshBlockhash e.draws e.success bh s
        hm hmin hminmax (hd e (List.mem_cons_self _ _)) hs)

/-- C1 (amended): in the volume workflow, for every `mCapFactor ≥ 1`,
every `0 ≤ minSolPerSwap ≤ maxSolPerSwap` and every sequence of in-range
random draws and submission outcomes, the running net-volume counter never
becomes negative, and a sell is only attempted when net-volume > 0.  (For
`0 < mCapFactor < 1` the sell fraction can exceed 1 and the counter can
go negative, see the counterexample.) -/
theorem volume_netVolume_never_negative
    (minS maxS m : ℚ) (envs : List VolumeIterEnv) (bh : BlockhashState) (s : VolumeState)
    (hm : 1 ≤ m) (hmin : 0 ≤ minS) (hminmax : minS ≤ maxS)
    (hd : ∀ e ∈ envs, ValidDraws e.draws) (hs : 0 ≤ s.totalNetVolume) :
    0 ≤ ((volumeRun minS maxS m envs (bh, s)).2).totalNetVolume ∧
    (∀ r : ℚ, shouldSell s r = true → 0 < s.totalNetVolume) :=
  ⟨volumeRun_netVolume_nonneg minS maxS m hm hmin hminmax envs bh s hd hs,
   fun r hr => shouldSell_pos s r hr⟩

/-- Witness for C1 (amended) at `mCapFactor = 1`, swap bounds
`[1/1000, 2/1000]`, one successful sell iteration starting from net volume
1. -/
theorem volume_netVolume_never_negative_witness :
    0 ≤ ((volumeRun (1 / 1000) (2 / 1000) 1
        [⟨0, "h1", ⟨0, 1 / 2, 1 / 2, 1 / 2⟩, true⟩]
        (⟨"h0", 0⟩, ⟨1, 0, 0, 0⟩)).2).totalNetVolume ∧
    (∀ r : ℚ, shouldSell ⟨1, 0, 0, 0⟩ r = true → 0 < (⟨1, 0, 0, 0⟩ : VolumeState).totalNetVolume) :=
  volume_netVolume_never_negative (1 / 1000) (2 / 1000) 1
    [⟨0, "h1", ⟨0, 1 / 2, 1 / 2, 1 / 2⟩, true⟩] ⟨"h0", 0⟩ ⟨1, 0, 0, 0⟩
    le_rfl (by norm_num) (by norm_num)
    (by
      intro e he
      simp only [List.mem_singleton] at he
      subst he
      refine ⟨by norm_num, by norm_num, by norm_num, by norm_num,
        by norm_num, by norm_num, by norm_num, by norm_num⟩)
    (by norm_num)

/-- Counterexample to C1 as stated: with the positive market-cap factor
`mCapFactor = 1/2`, valid bounds `1/1000 ≤ 2/1000`, in-range draws and a
successful submission, one sell iteration starting from net volume 1
drives the net-volume counter to `1 - 7/5 < 0` (the code's sell fraction
`0.5 + r·0.5·(1/mCapFactor)` evaluates to `7/5 > 1` at `r = 9/10`). -/
theorem netVolume_goes_negative_for_small_mCapFactor :
    (0 : ℚ) < 1 / 2 ∧
    (1 : ℚ) / 1000 ≤ 2 / 1000 ∧
    ValidDraws ⟨0, 9 / 10, 0, 0⟩ ∧
    ((volumeStep (1 / 1000) (2 / 1000) (1 / 2) 0 "h" ⟨0, 9 / 10, 0, 0⟩ true
        ⟨"h", 0⟩ ⟨1, 0, 0, 0⟩).2).totalNetVolume < 0 := by
  have hsell : shouldSell ⟨1, 0, 0, 0⟩ (0 : ℚ) = true := by
    norm_num [shouldSell]
  have hamt : sellAmount 1 (1 / 2) (9 / 10) = 1400000000 := by
    unfold sellAmount
    rw [show (1 : ℚ) * sellPercentage (1 / 2) (9 / 10) * 1000000000 =
      ((1400000000 : ℤ) : ℚ) by norm_num [sellPercentage]]
    exact Int.floor_intCast _
  refine ⟨by norm_num, by norm_num, ⟨by norm_num, by norm_num, by norm_num, by norm_num,
    by norm_num, by norm_num, by norm_num, by norm_num⟩, ?_⟩
  simp only [volumeStep, hsell, if_true, hamt]
  norm_num

/-- C2 counterexample: at `mCapFactor = 2` and draw `r = 1/2` the sell
fraction is `5/8`, outside the claimed interval
`[0.5·(1/mCapFactor), 1.0·(1/mCapFactor)] = [1/4, 1/2]`, and at net volume
1 the pre-scaling sell amount `1 · 5/8` lies outside the claimed range
`(0, 1·(1/2)]`. -/
theorem sellAmount_outside_claimed_interval :
    ¬ ((1 / 2) * (1 / (2 : ℚ)) ≤ sellPercentage 2 (1 / 2) ∧
        sellPercentage 2 (1 / 2) ≤ 1 * (1 / (2 : ℚ))) ∧
    ¬ (0 < (1 : ℚ) * sellPercentage 2 (1 / 2) ∧
        (1 : ℚ) * sellPercentage 2 (1 / 2) ≤ 1 * (1 / (2 : ℚ))) := by
  constructor <;> norm_num [sellPercentage]

/-- C2 (amended): whenever a sell is chosen, the computed fraction of
net volume is `0.5 + r·0.5·(1/mCapFactor)`, which for every draw
`r ∈ [0,1)` and `mCapFactor > 0` lies in
`[0.5, 0.5 + 0.5·(1/mCapFactor))`; hence for every net volume `v > 0` the
sell amount before scaling to smallest units lies in
`(0, v·(0.5 + 0.5·(1/mCapFactor)))`. -/
theorem sellPercentage_range (m r v : ℚ) (hm : 0 < m) (hr0 : 0 ≤ r) (hr1 : r < 1)
    (hv : 0 < v) :
    1 / 2 ≤ sellPercentage m r ∧
    sellPercentage m r < 1 / 2 + (1 / 2) * (1 / m) ∧
    0 < v * sellPercentage m r ∧
    v * sellPercentage m r < v * (1 / 2 + (1 / 2) * (1 / m)) := by
  have hu : 0 < 1 / m := by positivity
  have h1 : 1 / 2 ≤ sellPercentage m r := by
    have : 0 ≤ r * (1 / 2) * (1 / m) := by positivity
    unfold sellPercentage
    linarith
  have h2 : sellPercentage m r < 1 / 2 + (1 / 2) * (1 / m) := by
    have : r * (1 / 2) * (1 / m) < (1 / 2) * (1 / m) := by nlinarith
    unfold sellPercentage
    linarith
  exact ⟨h1, h2, mul_pos hv (lt_of_lt_of_le (by norm_num) h1),
    mul_lt_mul_of_pos_left h2 hv⟩

/-- Witness for C2 (amended) at `mCapFactor = 2`, `r = 1/2`, `v = 1`. -/
theorem sellPercentage_range_witness :
    1 / 2 ≤ sellPercentage 2 (1 / 2) ∧
    sellPercentage 2 (1 / 2) < 1 / 2 + (1 / 2) * (1 / 2) ∧
    0 < (1 : ℚ) * sellPercentage 2 (1 / 2) ∧
    (1 : ℚ) * sellPercentage 2 (1 / 2) < 1 * (1 / 2 + (1 / 2) * (1 / 2)) :=
  sellPercentage_range 2 (1 / 2) 1 (by norm_num) (by norm_num) (by norm_num) (by norm_num)

/-- One maker iteration either leaves the stats unchanged (exception or
result-less response) or applies the success update: bundle count +1,
completed count +4, remaining recomputed. -/
theorem makersIter_stats_cases (total : Int) (env : MakerIterEnv)
    (bh : BlockhashState) (stats : MakerStats) :
    (makersIter total env bh stats).2 = stats ∨
    ∃ bid, (makersIter total env bh stats).2 =
      { makersCompleted := stats.makersCompleted + 4,
        makersRemaining := total - (stats.makersCompleted + 4),
        bundleCount := stats.bundleCount + 1,
        latestBundleId := bid,
        finished := stats.finished } := by
  rcases env with ⟨fbh, oc⟩
  rcases oc with e | resp
  · left; rfl
  · simp only [makersIter]
    split
    · right; exact ⟨resp.result, rfl⟩
    · left; rfl

/-- Invariants of a terminating `makers` run: the loop exits only once the
completed count reaches the target, `finished` is set, the completed count
keeps its residue modulo 4, `makersRemaining` stays `total - completed`,
and the completed count never reaches `total + 4`. -/
theorem makersRun_invariants (total : Int) :
    ∀ (envs : List MakerIterEnv) (bh : BlockhashState) (stats : MakerStats)
      (res : BlockhashState × MakerStats),
      makersRun total envs (bh, stats) = some res →
      total ≤ res.2.makersCompleted ∧
      res.2.finished = true ∧
      (4 ∣ stats.makersCompleted → 4 ∣ res.2.makersCompleted) ∧
      (stats.makersRemaining = total - stats.makersCompleted →
        res.2.makersRemaining = total - res.2.makersCompleted) ∧
      (stats.makersCompleted < total + 4 → res.2.makersCompleted < total + 4) := by
  intro envs
  induction envs with
  | nil =>
    intro bh stats res h
    simp only [makersRun] at h
    split at h
    · exact absurd h (by simp)
    · rename_i hge
      obtain rfl : res = (bh, { stats with finished := true }) := by
        simpa using h.symm
      refine ⟨by dsimp only; omega, rfl, fun hdvd => hdvd, fun hrem => hrem, fun hlt => hlt⟩
  | cons env rest ih =>
    intro bh stats res h
    simp only [makersRun] at h
    split at h
    · rename_i hlt
      have hstep := ih (makersIter total env bh stats).1 (makersIter total env bh stats).2 res h
      rcases makersIter_stats_cases total env bh stats with hsame | ⟨bid, hupd⟩
      · rw [hsame] at hstep
        exact hstep
      · rw [hupd] at hstep
        obtain ⟨hA, hB, hC, hD, hE⟩ := hstep
        refine ⟨hA, hB, fun hdvd => hC (by dsimp only; omega),
          fun hrem => hD (by dsimp only), fun _ => hE (by dsimp only; omega)⟩
    · rename_i hge
      obtain rfl : res = (bh, { stats with finished := true }) := by
        simpa using h.symm
      refine ⟨by dsimp only; omega, rfl, fun hdvd => hdvd, fun hrem => hrem, fun hlt => hlt⟩

/-- C9: when `totalMakersRequired` is positive and not a multiple of 4,
every terminating all-outcomes run of `makers` overshoots: the returned
completed count is `4·⌈total/4⌉ = 4·((total+3)/4)`, which strictly exceeds
the target, and `makersRemaining` is negative; concretely,
`makers(mint, 6, {})` under two successful submissions returns completed 8
and remaining -2. -/
theorem makers_overshoots_non_multiple_of_four (total : Int) (envs : List MakerIterEnv)
    (bh : BlockhashState) (res : BlockhashState × MakerStats)
    (hpos : 0 < total) (hndvd : ¬ (4 ∣ total))
    (hrun : makersRun total envs (bh, initialMakerStats total) = some res) :
    res.2.makersCompleted = 4 * ((total + 3) / 4) ∧
    total < res.2.makersCompleted ∧
    res.2.makersRemaining < 0 ∧
    makersRun 6 [⟨"h1", .ok ⟨some "b1", none⟩⟩, ⟨"h2", .ok ⟨some "b2", none⟩⟩]
      (⟨"h0", 0⟩, initialMakerStats 6)
      = some (⟨"h0", 0⟩, ⟨8, -2, 2, some "b2", true⟩) := by
  obtain ⟨hA, hB, hC, hD, hE⟩ :=
    makersRun_invariants total envs bh (initialMakerStats total) res hrun
  have h4 : 4 ∣ res.2.makersCompleted := hC ⟨0, rfl⟩
  have hrem : res.2.makersRemaining = total - res.2.makersCompleted :=
    hD (by simp [initialMakerStats])
  have hlt : res.2.makersCompleted < total + 4 := hE (by simp [initialMakerStats]; omega)
  refine ⟨by omega, by omega, by omega, rfl⟩

/-- Witness for C9 at `total = 6` with two successful submissions. -/
theorem makers_overshoots_non_multiple_of_four_witness :
    ((⟨"h0", 0⟩, ⟨8, -2, 2, some "b2", true⟩) :
        BlockhashState × MakerStats).2.makersCompleted = 4 * (((6 : Int) + 3) / 4) ∧
    (6 : Int) < ((⟨"h0", 0⟩, ⟨8, -2, 2, some "b2", true⟩) :
        BlockhashState × MakerStats).2.makersCompleted ∧
    ((⟨"h0", 0⟩, ⟨8, -2, 2, some "b2", true⟩) :
        BlockhashState × MakerStats).2.makersRemaining < 0 ∧
    makersRun 6 [⟨"h1", .ok ⟨some "b1", none⟩⟩, ⟨"h2", .ok ⟨some "b2", none⟩⟩]
      (⟨"h0", 0⟩, initialMakerStats 6)
      = some (⟨"h0", 0⟩, ⟨8, -2, 2, some "b2", true⟩) :=
  makers_overshoots_non_multiple_of_four 6
    [⟨"h1", .ok ⟨some "b1", none⟩⟩, ⟨"h2", .ok ⟨some "b2", none⟩⟩]
    ⟨"h0", 0⟩ (⟨"h0", 0⟩, ⟨8, -2, 2, some "b2", true⟩)
    (by norm_num) (by decide) rfl

end SolanaVolumeSdk
